import Mathlib

/-!
Verification of the serde-regex adapter (src/lib.rs).

The adapter lets compiled regular-expression values participate in a generic
serialization pipeline: decoding reads source text and compiles it, encoding
recovers the original source text.  We shallowly embed the adapter over an
abstract wire-value model (`Value`, standing for the self-describing data model
of the serialization framework) and an abstract pattern-compilation engine
(`Engine`, standing for the external regex crate, which is out of scope of the
repository and modelled from the specification).
-/

set_option autoImplicit false

namespace SerdeRegex

/-- The serialization framework's self-describing data model: the absence
marker (null / none), a text token, a sequence of values, and a mapping given
as a list of key/value entry pairs in input order. -/
inductive Value where
  | null : Value
  | str : String → Value
  | seq : List Value → Value
  | map : List (Value × Value) → Value

/-- Modelled from the spec: the external pattern-compilation engine, which the
repository consumes but does not contain.  Per the spec's external-interface
section it exposes `compile(source_text) -> matcher | CompileError`; we model
the engine by its judgment on source texts: `check s = none` means `s` is a
syntactically valid pattern, `check s = some msg` means compilation fails with
diagnostic message `msg`. -/
structure Engine where
  check : String → Option String

/-- Modelled from the spec: a compiled text-mode pattern value is "a compiled
matcher plus, conceptually, its defining source text"; it can be constructed
only by successful compilation, and the engine can always recover the original
source text (`source_text_of`, i.e. `Regex::as_str`) from it. -/
structure Regex (e : Engine) where
  source : String
  valid : e.check source = none

/-- Modelled from the spec: the byte-mode pattern value has the same contract
as the text-mode one but matches raw bytes; its source is still text.  The
source duplicates the whole adapter for it, so we keep it a distinct type. -/
structure BytesRegex (e : Engine) where
  source : String
  valid : e.check source = none

/-- Modelled from the spec: first compilation failure among an ordered list of
member source texts, used by pattern-set construction. -/
def Engine.checkSet (e : Engine) : List String → Option String
  | [] => none
  | s :: rest =>
    match e.check s with
    | some msg => some msg
    | none => e.checkSet rest

/-- Modelled from the spec: a pattern-set value; "its externally-visible state
is the ordered list of original source strings used to build it"
(`RegexSet::patterns`). -/
structure RegexSet (e : Engine) where
  patterns : List String
  valid : e.checkSet patterns = none

/-- Modelled from the spec: the byte-mode pattern-set value. -/
structure BytesRegexSet (e : Engine) where
  patterns : List String
  valid : e.checkSet patterns = none

/-- Modelled from the spec: `compile(source_text) -> matcher | CompileError`
(`s.parse::<Regex>()`), failing with the engine's diagnostic message. -/
def Engine.compile (e : Engine) (s : String) : Except String (Regex e) :=
  match hc : e.check s with
  | none => .ok ⟨s, hc⟩
  | some msg => .error msg

/-- Modelled from the spec: compilation for the byte-mode kind
(`s.parse::<bytes::Regex>()`). -/
def Engine.compileBytes (e : Engine) (s : String) : Except String (BytesRegex e) :=
  match hc : e.check s with
  | none => .ok ⟨s, hc⟩
  | some msg => .error msg

/-- Modelled from the spec: `compile_set(ordered_source_texts) -> set_matcher
| CompileError` (`RegexSet::new`), one construction call over the whole list. -/
def Engine.compileSet (e : Engine) (l : List String) : Except String (RegexSet e) :=
  match hc : e.checkSet l with
  | none => .ok ⟨l, hc⟩
  | some msg => .error msg

/-- Modelled from the spec: byte-mode pattern-set construction
(`bytes::RegexSet::new`). -/
def Engine.compileBytesSet (e : Engine) (l : List String) : Except String (BytesRegexSet e) :=
  match hc : e.checkSet l with
  | none => .ok ⟨l, hc⟩
  | some msg => .error msg

/-- The wrapper carrier `Serde<T>` of src/lib.rs: a single-field generic
holder used to attach the encode/decode implementations. -/
structure Serde (T : Type) where
  val : T

/-- The `into_inner` pass-through of src/lib.rs. -/
def Serde.into_inner {T : Type} (x : Serde T) : T :=
  x.val

/-- The framework's text-token decode used by the adapter
(`<Cow<str>>::deserialize(d)`): succeeds exactly on a text token. -/
def deserializeCowStr : Value → Except String String
  | .str s => .ok s
  | _ => .error "invalid type: expected a string"

/-- The framework's `Vec<Cow<str>>` element loop: decode each value of a list
as a text token, failing on the first non-text element. -/
def deserializeCowStrList : List Value → Except String (List String)
  | [] => .ok []
  | v :: rest =>
    match deserializeCowStr v with
    | .error msg => .error msg
    | .ok s => (deserializeCowStrList rest).map (fun l => s :: l)

/-- The framework's `Vec<Cow<str>>` decode (`<Vec<Cow<str>>>::deserialize(d)`):
reads a whole sequence of text tokens into an ordered list. -/
def deserializeCowStrVec : Value → Except String (List String)
  | .seq vs => deserializeCowStrList vs
  | _ => .error "invalid type: expected a sequence"

/-- The `Deserialize for Serde<Regex>` impl (src/lib.rs lines 179-191): read
one text value, compile it; on failure surface the compiler's diagnostic via
`Error::custom`. -/
def Serde.deserializeRegex (e : Engine) (v : Value) : Except String (Serde (Regex e)) :=
  match deserializeCowStr v with
  | .error msg => .error msg
  | .ok s =>
    match e.compile s with
    | .ok regex => .ok ⟨regex⟩
    | .error err => .error err

/-- The `Deserialize for Serde<bytes::Regex>` impl (src/lib.rs lines 309-321). -/
def Serde.deserializeBytesRegex (e : Engine) (v : Value) : Except String (Serde (BytesRegex e)) :=
  match deserializeCowStr v with
  | .error msg => .error msg
  | .ok s =>
    match e.compileBytes s with
    | .ok regex => .ok ⟨regex⟩
    | .error err => .error err

/-- The `Serialize for Serde<Regex>` impl (src/lib.rs lines 411-418):
`self.0.as_str().serialize(serializer)`, one text token holding the original
source text. -/
def Serde.serializeRegex (e : Engine) (x : Serde (Regex e)) : Value :=
  .str x.val.source

/-- The `Serialize for Serde<bytes::Regex>` impl (src/lib.rs lines 535-542). -/
def Serde.serializeBytesRegex (e : Engine) (x : Serde (BytesRegex e)) : Value :=
  .str x.val.source

/-- The `Deserialize for Serde<RegexSet>` impl (src/lib.rs lines 205-217):
read the whole sequence of texts, then construct the set in one call. -/
def Serde.deserializeRegexSet (e : Engine) (v : Value) : Except String (Serde (RegexSet e)) :=
  match deserializeCowStrVec v with
  | .error msg => .error msg
  | .ok regexes =>
    match e.compileSet regexes with
    | .ok regexset => .ok ⟨regexset⟩
    | .error err => .error err

/-- The `Deserialize for Serde<bytes::RegexSet>` impl (src/lib.rs lines 323-335). -/
def Serde.deserializeBytesRegexSet (e : Engine) (v : Value) : Except String (Serde (BytesRegexSet e)) :=
  match deserializeCowStrVec v with
  | .error msg => .error msg
  | .ok regexes =>
    match e.compileBytesSet regexes with
    | .ok regexset => .ok ⟨regexset⟩
    | .error err => .error err

/-- The `Serialize for Serde<RegexSet>` impl (src/lib.rs lines 432-439):
`self.0.patterns().serialize(serializer)`, the ordered member texts as a
sequence of text tokens. -/
def Serde.serializeRegexSet (e : Engine) (x : Serde (RegexSet e)) : Value :=
  .seq (x.val.patterns.map .str)

/-- The `Serialize for Serde<bytes::RegexSet>` impl (src/lib.rs lines 565-572). -/
def Serde.serializeBytesRegexSet (e : Engine) (x : Serde (BytesRegexSet e)) : Value :=
  .seq (x.val.patterns.map .str)

/-- The serialization framework's `Option` decode used by each optional impl
(`Option::<Serde<..>>::deserialize(d)`): the explicit absence marker decodes
to `none`, any other value delegates to the inner decode. -/
def deserializeOptionWith {α : Type} (inner : Value → Except String (Serde α)) :
    Value → Except String (Option (Serde α))
  | .null => .ok none
  | v => (inner v).map some

/-- The `Deserialize for Serde<Option<Regex>>` impl (src/lib.rs lines 167-177):
match on the framework's optional decode of a wrapped single pattern and
rewrap. -/
def Serde.deserializeOptionRegex (e : Engine) (v : Value) :
    Except String (Serde (Option (Regex e))) :=
  match deserializeOptionWith (Serde.deserializeRegex e) v with
  | .ok (some ⟨regex⟩) => .ok ⟨some regex⟩
  | .ok none => .ok ⟨none⟩
  | .error msg => .error msg

/-- The `Deserialize for Serde<Option<bytes::Regex>>` impl (src/lib.rs lines
297-307). -/
def Serde.deserializeOptionBytesRegex (e : Engine) (v : Value) :
    Except String (Serde (Option (BytesRegex e))) :=
  match deserializeOptionWith (Serde.deserializeBytesRegex e) v with
  | .ok (some ⟨regex⟩) => .ok ⟨some regex⟩
  | .ok none => .ok ⟨none⟩
  | .error msg => .error msg

/-- The `Deserialize for Serde<Option<RegexSet>>` impl (src/lib.rs lines
193-203). -/
def Serde.deserializeOptionRegexSet (e : Engine) (v : Value) :
    Except String (Serde (Option (RegexSet e))) :=
  match deserializeOptionWith (Serde.deserializeRegexSet e) v with
  | .ok (some ⟨regexset⟩) => .ok ⟨some regexset⟩
  | .ok none => .ok ⟨none⟩
  | .error msg => .error msg

/-- The `Serialize for Serde<&Option<Regex>>` impl (src/lib.rs lines 441-451):
an absent value emits the absence marker, a present one delegates to the
single-pattern encode (`serialize_some(&Serde(value))`). -/
def Serde.serializeOptionRegex (e : Engine) (x : Serde (Option (Regex e))) : Value :=
  match x.val with
  | some value => Serde.serializeRegex e ⟨value⟩
  | none => .null

/-- The `Serialize for Serde<&Option<bytes::Regex>>` impl (src/lib.rs lines
544-554). -/
def Serde.serializeOptionBytesRegex (e : Engine) (x : Serde (Option (BytesRegex e))) : Value :=
  match x.val with
  | some value => Serde.serializeBytesRegex e ⟨value⟩
  | none => .null

/-- The `Serialize for Serde<Option<RegexSet>>` impl (src/lib.rs lines
420-430). -/
def Serde.serializeOptionRegexSet (e : Engine) (x : Serde (Option (RegexSet e))) : Value :=
  match x.val with
  | some value => Serde.serializeRegexSet e ⟨value⟩
  | none => .null

/-- The element loop of `RegexVecVisitor::visit_seq` (src/lib.rs lines 63-75):
decode each element through `Serde<Regex>` and push it in read order, the
`?` on `next_element` propagating the first element failure. -/
def RegexVecVisitor.visitSeq (e : Engine) : List Value → Except String (List (Regex e))
  | [] => .ok []
  | v :: rest =>
    match Serde.deserializeRegex e v with
    | .error msg => .error msg
    | .ok ⟨el⟩ => (RegexVecVisitor.visitSeq e rest).map (fun vec => el :: vec)

/-- The element loop of `BytesRegexVecVisitor::visit_seq` (src/lib.rs lines
84-96). -/
def BytesRegexVecVisitor.visitSeq (e : Engine) : List Value → Except String (List (BytesRegex e))
  | [] => .ok []
  | v :: rest =>
    match Serde.deserializeBytesRegex e v with
    | .error msg => .error msg
    | .ok ⟨el⟩ => (BytesRegexVecVisitor.visitSeq e rest).map (fun vec => el :: vec)

/-- The `Deserialize for Serde<Vec<Regex>>` impl (src/lib.rs lines 219-226):
`d.deserialize_seq(RegexVecVisitor)`; a non-sequence input is rejected by the
framework with the visitor's expectation. -/
def Serde.deserializeRegexVec (e : Engine) : Value → Except String (Serde (List (Regex e)))
  | .seq vs => (RegexVecVisitor.visitSeq e vs).map Serde.mk
  | _ => .error "invalid type: expected valid sequence"

/-- The `Deserialize for Serde<Vec<bytes::Regex>>` impl (src/lib.rs lines
337-344). -/
def Serde.deserializeBytesRegexVec (e : Engine) : Value → Except String (Serde (List (BytesRegex e)))
  | .seq vs => (BytesRegexVecVisitor.visitSeq e vs).map Serde.mk
  | _ => .error "invalid type: expected valid sequence"

/-- The `Serialize for Serde<&Vec<Regex>>` impl (src/lib.rs lines 484-495):
emit a sequence of the elements, each through the single-pattern encode, in
stored order. -/
def Serde.serializeRegexVec (e : Engine) (x : Serde (List (Regex e))) : Value :=
  .seq (x.val.map (fun element => Serde.serializeRegex e ⟨element⟩))

/-- The `Serialize for Serde<&Vec<bytes::Regex>>` impl (src/lib.rs lines
608-619). -/
def Serde.serializeBytesRegexVec (e : Engine) (x : Serde (List (BytesRegex e))) : Value :=
  .seq (x.val.map (fun element => Serde.serializeBytesRegex e ⟨element⟩))

/-- The `Deserialize for Serde<Option<Vec<Regex>>>` impl (src/lib.rs lines
269-279). -/
def Serde.deserializeOptionRegexVec (e : Engine) (v : Value) :
    Except String (Serde (Option (List (Regex e)))) :=
  match deserializeOptionWith (Serde.deserializeRegexVec e) v with
  | .ok (some ⟨vec⟩) => .ok ⟨some vec⟩
  | .ok none => .ok ⟨none⟩
  | .error msg => .error msg

/-- The `Deserialize for Serde<Option<Vec<bytes::Regex>>>` impl (src/lib.rs
lines 241-251). -/
def Serde.deserializeOptionBytesRegexVec (e : Engine) (v : Value) :
    Except String (Serde (Option (List (BytesRegex e)))) :=
  match deserializeOptionWith (Serde.deserializeBytesRegexVec e) v with
  | .ok (some ⟨vec⟩) => .ok ⟨some vec⟩
  | .ok none => .ok ⟨none⟩
  | .error msg => .error msg

/-- The `Serialize for Serde<&Option<Vec<Regex>>>` impl (src/lib.rs lines
497-507). -/
def Serde.serializeOptionRegexVec (e : Engine) (x : Serde (Option (List (Regex e)))) : Value :=
  match x.val with
  | some value => Serde.serializeRegexVec e ⟨value⟩
  | none => .null

/-- The `Serialize for Serde<&Option<Vec<bytes::Regex>>>` impl (src/lib.rs
lines 583-593). -/
def Serde.serializeOptionBytesRegexVec (e : Engine)
    (x : Serde (Option (List (BytesRegex e)))) : Value :=
  match x.val with
  | some value => Serde.serializeBytesRegexVec e ⟨value⟩
  | none => .null

/-- The standard hash-map insert used by the visitors (`HashMap::insert`):
if the key is already present its value is replaced in place, otherwise the
new entry is appended.  We model the hash map as an entry list with unique
keys; enumeration order of a hash map is unspecified, so theorems about the
map only use its relational content. -/
def hashMapInsert {K V : Type} [DecidableEq K] : List (K × V) → K → V → List (K × V)
  | [], k, v => [(k, v)]
  | p :: rest, k, v =>
    if p.1 = k then (k, v) :: rest else p :: hashMapInsert rest k v

/-- Lookup in the modelled hash map. -/
def hashMapLookup {K V : Type} [DecidableEq K] : List (K × V) → K → Option V
  | [], _ => none
  | p :: rest, k => if p.1 = k then some p.2 else hashMapLookup rest k

/-- The entry loop of `RegexHashMapVisitor::visit_map` (src/lib.rs lines
126-139): decode each key by the key type's own decode `dK`, each value
through `Serde<Regex>`, and insert into the accumulating hash map; `?` on
`next_entry` propagates the first entry failure. -/
def RegexHashMapVisitor.visitMap {K : Type} [DecidableEq K]
    (e : Engine) (dK : Value → Except String K) :
    List (Value × Value) → List (K × Regex e) → Except String (List (K × Regex e))
  | [], hashmap => .ok hashmap
  | (kv, vv) :: rest, hashmap =>
    match dK kv with
    | .error msg => .error msg
    | .ok key =>
      match Serde.deserializeRegex e vv with
      | .error msg => .error msg
      | .ok ⟨value⟩ =>
        RegexHashMapVisitor.visitMap e dK rest (hashMapInsert hashmap key value)

/-- The entry loop of `BytesRegexHashMapVisitor::visit_map` (src/lib.rs lines
151-164). -/
def BytesRegexHashMapVisitor.visitMap {K : Type} [DecidableEq K]
    (e : Engine) (dK : Value → Except String K) :
    List (Value × Value) → List (K × BytesRegex e) → Except String (List (K × BytesRegex e))
  | [], hashmap => .ok hashmap
  | (kv, vv) :: rest, hashmap =>
    match dK kv with
    | .error msg => .error msg
    | .ok key =>
      match Serde.deserializeBytesRegex e vv with
      | .error msg => .error msg
      | .ok ⟨value⟩ =>
        BytesRegexHashMapVisitor.visitMap e dK rest (hashMapInsert hashmap key value)

/-- The `Deserialize for Serde<HashMap<K, Regex, S>>` impl (src/lib.rs lines
228-239): `d.deserialize_map(RegexHashMapVisitor::default())`, starting from
an empty map. -/
def Serde.deserializeRegexHashMap {K : Type} [DecidableEq K]
    (e : Engine) (dK : Value → Except String K) :
    Value → Except String (Serde (List (K × Regex e)))
  | .map entries => (RegexHashMapVisitor.visitMap e dK entries []).map Serde.mk
  | _ => .error "invalid type: expected valid map"

/-- The `Deserialize for Serde<HashMap<K, bytes::Regex, S>>` impl (src/lib.rs
lines 345-356). -/
def Serde.deserializeBytesRegexHashMap {K : Type} [DecidableEq K]
    (e : Engine) (dK : Value → Except String K) :
    Value → Except String (Serde (List (K × BytesRegex e)))
  | .map entries => (BytesRegexHashMapVisitor.visitMap e dK entries []).map Serde.mk
  | _ => .error "invalid type: expected valid map"

/-- The `Deserialize for Serde<Option<HashMap<K, Regex, S>>>` impl (src/lib.rs
lines 281-295). -/
def Serde.deserializeOptionRegexHashMap {K : Type} [DecidableEq K]
    (e : Engine) (dK : Value → Except String K) (v : Value) :
    Except String (Serde (Option (List (K × Regex e)))) :=
  match deserializeOptionWith (Serde.deserializeRegexHashMap e dK) v with
  | .ok (some ⟨m⟩) => .ok ⟨some m⟩
  | .ok none => .ok ⟨none⟩
  | .error msg => .error msg

/-- The `Deserialize for Serde<Option<HashMap<K, bytes::Regex, S>>>` impl
(src/lib.rs lines 253-267). -/
def Serde.deserializeOptionBytesRegexHashMap {K : Type} [DecidableEq K]
    (e : Engine) (dK : Value → Except String K) (v : Value) :
    Except String (Serde (Option (List (K × BytesRegex e)))) :=
  match deserializeOptionWith (Serde.deserializeBytesRegexHashMap e dK) v with
  | .ok (some ⟨m⟩) => .ok ⟨some m⟩
  | .ok none => .ok ⟨none⟩
  | .error msg => .error msg

/-- The `Serialize for Serde<&HashMap<K, Regex, S>>` impl (src/lib.rs lines
509-524): emit each stored entry with the key encoded by its own contract
`sK` and the value through the single-pattern encode, in the map's
enumeration order. -/
def Serde.serializeRegexHashMap {K : Type} (e : Engine) (sK : K → Value)
    (x : Serde (List (K × Regex e))) : Value :=
  .map (x.val.map (fun p => (sK p.1, Serde.serializeRegex e ⟨p.2⟩)))

/-- The `Serialize for Serde<&HashMap<K, bytes::Regex, S>>` impl (src/lib.rs
lines 621-636). -/
def Serde.serializeBytesRegexHashMap {K : Type} (e : Engine) (sK : K → Value)
    (x : Serde (List (K × BytesRegex e))) : Value :=
  .map (x.val.map (fun p => (sK p.1, Serde.serializeBytesRegex e ⟨p.2⟩)))

/-- The free `deserialize` entry point (src/lib.rs lines 358-364):
`Serde::deserialize(deserializer).map(|x| x.0)`, given the wrapper decode
implementation that matches the requested type. -/
def deserialize {T : Type} (dec : Value → Except String (Serde T)) (v : Value) :
    Except String T :=
  (dec v).map Serde.val

/-- The free `serialize` entry point (src/lib.rs lines 367-373):
`Serde(value).serialize(serializer)`, a transient carrier wrapping the value
handed to the wrapper encode implementation. -/
def serialize {T : Type} (enc : Serde T → Value) (value : T) : Value :=
  enc ⟨value⟩

/-- Following the spec's words, for the refinement claim about the free entry
points: `deserialize` "returns exactly the result of the wrapper type's
decode with the carrier unwrapped (same value on success, same error on
failure)". -/
def deserializeSpecSide {T : Type} (dec : Value → Except String (Serde T)) (v : Value) :
    Except String T :=
  match dec v with
  | .ok w => .ok w.val
  | .error msg => .error msg

/-- The supported pattern kinds of the adapter. -/
inductive PatternKind where
  | textRegex : PatternKind
  | byteRegex : PatternKind
  | textRegexSet : PatternKind
  | byteRegexSet : PatternKind
deriving DecidableEq

/-- The container shapes the adapter composes with. -/
inductive Shape where
  | single : Shape
  | optional : Shape
  | sequence : Shape
  | mapping : Shape
  | optionalSequence : Shape
  | optionalMapping : Shape
deriving DecidableEq

/-- The exact table of `Deserialize` impls present in src/lib.rs (lines 167,
179, 193, 205, 219, 228, 241, 253, 269, 281, 297, 309, 323, 337, 345), as
(shape, pattern kind) pairs. -/
def deserializeImpls : List (Shape × PatternKind) :=
  [(.optional, .textRegex), (.single, .textRegex),
   (.optional, .textRegexSet), (.single, .textRegexSet),
   (.sequence, .textRegex), (.mapping, .textRegex),
   (.optionalSequence, .byteRegex), (.optionalMapping, .byteRegex),
   (.optionalSequence, .textRegex), (.optionalMapping, .textRegex),
   (.optional, .byteRegex), (.single, .byteRegex),
   (.single, .byteRegexSet), (.sequence, .byteRegex), (.mapping, .byteRegex)]

/-- The exact table of `Serialize` impls present in src/lib.rs (lines 402,
411, 420, 432, 441, 453, 462, 471, 484, 497, 509, 526, 535, 544, 556, 565,
574, 583, 595, 608, 621), as (shape, pattern kind) pairs; owned and
by-reference impls for the same shape and kind are recorded once. -/
def serializeImpls : List (Shape × PatternKind) :=
  [(.single, .textRegex), (.optional, .textRegexSet), (.single, .textRegexSet),
   (.optional, .textRegex), (.sequence, .textRegex), (.mapping, .textRegex),
   (.optionalSequence, .textRegex),
   (.single, .byteRegex), (.optional, .byteRegex), (.single, .byteRegexSet),
   (.sequence, .byteRegex), (.optionalSequence, .byteRegex),
   (.mapping, .byteRegex)]

/-- A toy engine instance used to produce concrete witnesses: it rejects the
single source text "(" with the diagnostic "unclosed group" and accepts every
other source text. -/
def toyEngine : Engine :=
  ⟨fun s => if s = "(" then some "unclosed group" else none⟩

/-- Last-write-wins resolution of an entry list, threaded through an
accumulator: the relational content a mapping decode produces. -/
def resolveLWWFrom {K : Type} [DecidableEq K] :
    List (K × String) → List (K × String) → List (K × String)
  | acc, [] => acc
  | acc, p :: rest => resolveLWWFrom (hashMapInsert acc p.1 p.2) rest

/-- Last-write-wins resolution of an input entry list. -/
def resolveLWW {K : Type} [DecidableEq K] (l : List (K × String)) : List (K × String) :=
  resolveLWWFrom [] l

/-- The last value given for a key in an input entry list, if any. -/
def lastAssoc {K : Type} [DecidableEq K] : List (K × String) → K → Option String
  | [], _ => none
  | p :: rest, k =>
    match lastAssoc rest k with
    | some s => some s
    | none => if p.1 = k then some p.2 else none

theorem compile_of_check {e : Engine} {s : String} (h : e.check s = none) :
    e.compile s = .ok ⟨s, h⟩ := by
  unfold Engine.compile
  split
  · rfl
  · rename_i msg hc
    rw [h] at hc
    exact absurd hc (Option.noConfusion)

theorem compileBytes_of_check {e : Engine} {s : String} (h : e.check s = none) :
    e.compileBytes s = .ok ⟨s, h⟩ := by
  unfold Engine.compileBytes
  split
  · rfl
  · rename_i msg hc
    rw [h] at hc
    exact absurd hc (Option.noConfusion)

theorem compile_of_check_err {e : Engine} {s msg : String} (h : e.check s = some msg) :
    e.compile s = .error msg := by
  unfold Engine.compile
  split
  · rename_i hc
    rw [h] at hc
    exact absurd hc (Option.noConfusion)
  · rename_i m hc
    rw [h] at hc
    cases hc
    rfl

theorem compileBytes_of_check_err {e : Engine} {s msg : String} (h : e.check s = some msg) :
    e.compileBytes s = .error msg := by
  unfold Engine.compileBytes
  split
  · rename_i hc
    rw [h] at hc
    exact absurd hc (Option.noConfusion)
  · rename_i m hc
    rw [h] at hc
    cases hc
    rfl

theorem compileSet_of_checkSet {e : Engine} {l : List String} (h : e.checkSet l = none) :
    e.compileSet l = .ok ⟨l, h⟩ := by
  unfold Engine.compileSet
  split
  · rfl
  · rename_i msg hc
    rw [h] at hc
    exact absurd hc (Option.noConfusion)

theorem compileBytesSet_of_checkSet {e : Engine} {l : List String} (h : e.checkSet l = none) :
    e.compileBytesSet l = .ok ⟨l, h⟩ := by
  unfold Engine.compileBytesSet
  split
  · rfl
  · rename_i msg hc
    rw [h] at hc
    exact absurd hc (Option.noConfusion)

theorem compileSet_of_checkSet_err {e : Engine} {l : List String} {msg : String}
    (h : e.checkSet l = some msg) : e.compileSet l = .error msg := by
  unfold Engine.compileSet
  split
  · rename_i hc
    rw [h] at hc
    exact absurd hc (Option.noConfusion)
  · rename_i m hc
    rw [h] at hc
    cases hc
    rfl

theorem deserializeRegex_str_ok {e : Engine} {s : String} (h : e.check s = none) :
    Serde.deserializeRegex e (.str s) = .ok ⟨⟨s, h⟩⟩ := by
  simp [Serde.deserializeRegex, deserializeCowStr, compile_of_check h]

theorem deserializeBytesRegex_str_ok {e : Engine} {s : String} (h : e.check s = none) :
    Serde.deserializeBytesRegex e (.str s) = .ok ⟨⟨s, h⟩⟩ := by
  simp [Serde.deserializeBytesRegex, deserializeCowStr, compileBytes_of_check h]

theorem deserializeRegex_str_err {e : Engine} {s msg : String} (h : e.check s = some msg) :
    Serde.deserializeRegex e (.str s) = .error msg := by
  simp [Serde.deserializeRegex, deserializeCowStr, compile_of_check_err h]

theorem deserializeBytesRegex_str_err {e : Engine} {s msg : String} (h : e.check s = some msg) :
    Serde.deserializeBytesRegex e (.str s) = .error msg := by
  simp [Serde.deserializeBytesRegex, deserializeCowStr, compileBytes_of_check_err h]

theorem deserializeCowStrList_map (l : List String) :
    deserializeCowStrList (l.map .str) = .ok l := by
  induction l with
  | nil => rfl
  | cons s rest ih => simp [deserializeCowStrList, deserializeCowStr, ih, Except.map]

theorem checkSet_ok {e : Engine} (l : List String) (h : ∀ s ∈ l, e.check s = none) :
    e.checkSet l = none := by
  induction l with
  | nil => rfl
  | cons s rest ih =>
    simp [Engine.checkSet, h s (List.mem_cons_self ..),
      ih (fun x hx => h x (List.mem_cons_of_mem _ hx))]

theorem checkSet_err {e : Engine} (pre : List String) {bad msg : String} (rest : List String)
    (hpre : ∀ s ∈ pre, e.check s = none) (hbad : e.check bad = some msg) :
    e.checkSet (pre ++ bad :: rest) = some msg := by
  induction pre with
  | nil => simp [Engine.checkSet, hbad]
  | cons s ps ih =>
    simp [Engine.checkSet, hpre s (List.mem_cons_self ..),
      ih (fun x hx => hpre x (List.mem_cons_of_mem _ hx))]

theorem visitSeq_ok {e : Engine} (l : List String) (h : ∀ s ∈ l, e.check s = none) :
    ∃ rs : List (Regex e), RegexVecVisitor.visitSeq e (l.map .str) = .ok rs ∧
      rs.map Regex.source = l := by
  induction l with
  | nil => exact ⟨[], rfl, rfl⟩
  | cons s rest ih =>
    have hs : e.check s = none := h s (List.mem_cons_self ..)
    obtain ⟨rs, hrs, hsrc⟩ := ih (fun x hx => h x (List.mem_cons_of_mem _ hx))
    refine ⟨⟨s, hs⟩ :: rs, ?_, ?_⟩
    · simp [RegexVecVisitor.visitSeq, deserializeRegex_str_ok hs, hrs, Except.map]
    · simp [hsrc]

theorem bytesVisitSeq_ok {e : Engine} (l : List String) (h : ∀ s ∈ l, e.check s = none) :
    ∃ rs : List (BytesRegex e), BytesRegexVecVisitor.visitSeq e (l.map .str) = .ok rs ∧
      rs.map BytesRegex.source = l := by
  induction l with
  | nil => exact ⟨[], rfl, rfl⟩
  | cons s rest ih =>
    have hs : e.check s = none := h s (List.mem_cons_self ..)
    obtain ⟨rs, hrs, hsrc⟩ := ih (fun x hx => h x (List.mem_cons_of_mem _ hx))
    refine ⟨⟨s, hs⟩ :: rs, ?_, ?_⟩
    · simp [BytesRegexVecVisitor.visitSeq, deserializeBytesRegex_str_ok hs, hrs, Except.map]
    · simp [hsrc]

theorem visitSeq_err {e : Engine} (pre : List String) {bad msg : String} (rest : List Value)
    (hpre : ∀ s ∈ pre, e.check s = none) (hbad : e.check bad = some msg) :
    RegexVecVisitor.visitSeq e (pre.map .str ++ .str bad :: rest) = .error msg := by
  induction pre with
  | nil => simp [RegexVecVisitor.visitSeq, deserializeRegex_str_err hbad]
  | cons s ps ih =>
    simp [RegexVecVisitor.visitSeq, deserializeRegex_str_ok (hpre s (List.mem_cons_self ..)),
      ih (fun x hx => hpre x (List.mem_cons_of_mem _ hx)), Except.map]

theorem bytesVisitSeq_err {e : Engine} (pre : List String) {bad msg : String} (rest : List Value)
    (hpre : ∀ s ∈ pre, e.check s = none) (hbad : e.check bad = some msg) :
    BytesRegexVecVisitor.visitSeq e (pre.map .str ++ .str bad :: rest) = .error msg := by
  induction pre with
  | nil => simp [BytesRegexVecVisitor.visitSeq, deserializeBytesRegex_str_err hbad]
  | cons s ps ih =>
    simp [BytesRegexVecVisitor.visitSeq,
      deserializeBytesRegex_str_ok (hpre s (List.mem_cons_self ..)),
      ih (fun x hx => hpre x (List.mem_cons_of_mem _ hx)), Except.map]

theorem hashMapLookup_insert_self {K V : Type} [DecidableEq K]
    (m : List (K × V)) (k : K) (v : V) :
    hashMapLookup (hashMapInsert m k v) k = some v := by
  induction m with
  | nil => simp [hashMapInsert, hashMapLookup]
  | cons p rest ih =>
    by_cases hp : p.1 = k
    · simp [hashMapInsert, hp, hashMapLookup]
    · simp [hashMapInsert, hp, hashMapLookup, ih]

theorem hashMapLookup_insert_ne {K V : Type} [DecidableEq K]
    (m : List (K × V)) {k q : K} (v : V) (h : q ≠ k) :
    hashMapLookup (hashMapInsert m k v) q = hashMapLookup m q := by
  have hkq : ¬(k = q) := fun hh => h hh.symm
  induction m with
  | nil => simp [hashMapInsert, hashMapLookup, hkq]
  | cons p rest ih =>
    by_cases hp : p.1 = k
    · have hpq : ¬(p.1 = q) := by rw [hp]; exact hkq
      simp [hashMapInsert, hp, hashMapLookup, hkq, hpq]
    · have hstep : hashMapInsert (p :: rest) k v = p :: hashMapInsert rest k v := by
        simp [hashMapInsert, hp]
      rw [hstep]
      by_cases hq : p.1 = q
      · simp [hashMapLookup, hq]
      · simp [hashMapLookup, hq, ih]

theorem map_hashMapInsert {K V W : Type} [DecidableEq K] (f : V → W)
    (m : List (K × V)) (k : K) (v : V) :
    (hashMapInsert m k v).map (fun p => (p.1, f p.2)) =
      hashMapInsert (m.map (fun p => (p.1, f p.2))) k (f v) := by
  induction m with
  | nil => rfl
  | cons p rest ih =>
    by_cases hp : p.1 = k <;> simp [hashMapInsert, hp, ih]

theorem hashMapLookup_resolveLWWFrom {K : Type} [DecidableEq K]
    (l : List (K × String)) (acc : List (K × String)) (k : K) :
    hashMapLookup (resolveLWWFrom acc l) k =
      match lastAssoc l k with
      | some s => some s
      | none => hashMapLookup acc k := by
  induction l generalizing acc with
  | nil => rfl
  | cons p rest ih =>
    show hashMapLookup (resolveLWWFrom (hashMapInsert acc p.1 p.2) rest) k = _
    rw [ih]
    cases hl : lastAssoc rest k with
    | some s => simp [lastAssoc, hl]
    | none =>
      by_cases hp : p.1 = k
      · subst hp
        simp [lastAssoc, hl, hashMapLookup_insert_self]
      · simp [lastAssoc, hl, hp, hashMapLookup_insert_ne acc p.2 (fun hh => hp hh.symm)]

theorem visitMap_ok {K : Type} [DecidableEq K] {e : Engine}
    (dK : Value → Except String K) (sK : K → Value)
    (hks : ∀ k, dK (sK k) = .ok k)
    (l : List (K × String)) (hval : ∀ p ∈ l, e.check p.2 = none)
    (acc : List (K × Regex e)) :
    ∃ m : List (K × Regex e),
      RegexHashMapVisitor.visitMap e dK (l.map (fun p => (sK p.1, .str p.2))) acc = .ok m ∧
      m.map (fun p => (p.1, p.2.source)) =
        resolveLWWFrom (acc.map (fun p => (p.1, p.2.source))) l := by
  induction l generalizing acc with
  | nil => exact ⟨acc, rfl, rfl⟩
  | cons p rest ih =>
    have hp : e.check p.2 = none := hval p (List.mem_cons_self ..)
    obtain ⟨m, hm, hproj⟩ := ih (fun q hq => hval q (List.mem_cons_of_mem _ hq))
      (hashMapInsert acc p.1 ⟨p.2, hp⟩)
    refine ⟨m, ?_, ?_⟩
    · simp [RegexHashMapVisitor.visitMap, hks p.1, deserializeRegex_str_ok hp, hm]
    · rw [hproj]
      show resolveLWWFrom ((hashMapInsert acc p.1 ⟨p.2, hp⟩).map
        (fun q => (q.1, Regex.source q.2))) rest = _
      rw [map_hashMapInsert Regex.source acc p.1 ⟨p.2, hp⟩]
      rfl

theorem bytesVisitMap_ok {K : Type} [DecidableEq K] {e : Engine}
    (dK : Value → Except String K) (sK : K → Value)
    (hks : ∀ k, dK (sK k) = .ok k)
    (l : List (K × String)) (hval : ∀ p ∈ l, e.check p.2 = none)
    (acc : List (K × BytesRegex e)) :
    ∃ m : List (K × BytesRegex e),
      BytesRegexHashMapVisitor.visitMap e dK (l.map (fun p => (sK p.1, .str p.2))) acc = .ok m ∧
      m.map (fun p => (p.1, p.2.source)) =
        resolveLWWFrom (acc.map (fun p => (p.1, p.2.source))) l := by
  induction l generalizing acc with
  | nil => exact ⟨acc, rfl, rfl⟩
  | cons p rest ih =>
    have hp : e.check p.2 = none := hval p (List.mem_cons_self ..)
    obtain ⟨m, hm, hproj⟩ := ih (fun q hq => hval q (List.mem_cons_of_mem _ hq))
      (hashMapInsert acc p.1 ⟨p.2, hp⟩)
    refine ⟨m, ?_, ?_⟩
    · simp [BytesRegexHashMapVisitor.visitMap, hks p.1, deserializeBytesRegex_str_ok hp, hm]
    · rw [hproj]
      show resolveLWWFrom ((hashMapInsert acc p.1 ⟨p.2, hp⟩).map
        (fun q => (q.1, BytesRegex.source q.2))) rest = _
      rw [map_hashMapInsert BytesRegex.source acc p.1 ⟨p.2, hp⟩]
      rfl

theorem hashMapLookup_map {K V W : Type} [DecidableEq K] (f : V → W)
    (m : List (K × V)) (k : K) :
    hashMapLookup (m.map (fun p => (p.1, f p.2))) k = (hashMapLookup m k).map f := by
  induction m with
  | nil => rfl
  | cons p rest ih => by_cases hp : p.1 = k <;> simp [hashMapLookup, hp, ih]

/-- Claim C1: for both supported single pattern kinds (text regex and byte
regex) and every syntactically valid source text s, decoding the text token s
and re-encoding the compiled value emits exactly the text token s again — the
encode returns the compiled value's original source text with no
normalization. -/
theorem claim1_single_roundtrip (e : Engine) (s : String) (h : e.check s = none) :
    (Serde.deserializeRegex e (.str s)).map (Serde.serializeRegex e) = .ok (.str s) ∧
    (Serde.deserializeBytesRegex e (.str s)).map (Serde.serializeBytesRegex e) = .ok (.str s) := by
  constructor
  · simp [deserializeRegex_str_ok h, Except.map, Serde.serializeRegex]
  · simp [deserializeBytesRegex_str_ok h, Except.map, Serde.serializeBytesRegex]

theorem claim1_single_roundtrip_witness :
    (Serde.deserializeRegex toyEngine (.str "a.*b")).map (Serde.serializeRegex toyEngine)
      = .ok (.str "a.*b") ∧
    (Serde.deserializeBytesRegex toyEngine (.str "a.*b")).map (Serde.serializeBytesRegex toyEngine)
      = .ok (.str "a.*b") :=
  claim1_single_roundtrip toyEngine "a.*b" (by decide)

/-- Claim C2: for every source text that fails to compile, the single-value
decode of both the text and the byte kind returns an error carrying the
compiler's diagnostic message, never a value. -/
theorem claim2_compile_failure (e : Engine) (s msg : String) (h : e.check s = some msg) :
    Serde.deserializeRegex e (.str s) = .error msg ∧
    Serde.deserializeBytesRegex e (.str s) = .error msg :=
  ⟨deserializeRegex_str_err h, deserializeBytesRegex_str_err h⟩

theorem claim2_compile_failure_witness :
    Serde.deserializeRegex toyEngine (.str "(") = .error "unclosed group" ∧
    Serde.deserializeBytesRegex toyEngine (.str "(") = .error "unclosed group" :=
  claim2_compile_failure toyEngine "(" "unclosed group" (by decide)

/-- Claim C3: the pattern-set decode reads the whole sequence of source texts
into an ordered list and constructs the set from it in one construction call;
when every member is valid the decode succeeds, the set's member list is the
input list, and re-encoding emits exactly the original ordered sequence; when
some member is invalid the entire set decode fails with that member's
diagnostic. -/
theorem claim3_regexset (e : Engine) (l pre rest : List String) (bad msg : String)
    (hl : ∀ s ∈ l, e.check s = none)
    (hpre : ∀ s ∈ pre, e.check s = none) (hbad : e.check bad = some msg) :
    (∃ st : Serde (RegexSet e),
      Serde.deserializeRegexSet e (.seq (l.map .str)) = .ok st ∧
      st.val.patterns = l ∧
      Serde.serializeRegexSet e st = .seq (l.map .str)) ∧
    Serde.deserializeRegexSet e (.seq ((pre ++ bad :: rest).map .str)) = .error msg := by
  constructor
  · refine ⟨⟨⟨l, checkSet_ok l hl⟩⟩, ?_, rfl, rfl⟩
    simp [Serde.deserializeRegexSet, deserializeCowStrVec, deserializeCowStrList_map,
      compileSet_of_checkSet (checkSet_ok l hl)]
  · have hcl := deserializeCowStrList_map (pre ++ bad :: rest)
    rw [List.map_append, List.map_cons] at hcl
    simp [Serde.deserializeRegexSet, deserializeCowStrVec, hcl,
      compileSet_of_checkSet_err (checkSet_err pre rest hpre hbad)]

theorem claim3_regexset_witness :
    (∃ st : Serde (RegexSet toyEngine),
      Serde.deserializeRegexSet toyEngine
        (.seq [.str "my(regex)?", .str "other[regex]+"]) = .ok st ∧
      st.val.patterns = ["my(regex)?", "other[regex]+"] ∧
      Serde.serializeRegexSet toyEngine st
        = .seq [.str "my(regex)?", .str "other[regex]+"]) ∧
    Serde.deserializeRegexSet toyEngine (.seq [.str "a", .str "(", .str "b"])
      = .error "unclosed group" :=
  claim3_regexset toyEngine ["my(regex)?", "other[regex]+"] ["a"] ["b"] "(" "unclosed group"
    (by decide) (by decide) (by decide)

/-- Claim C5: decoding a sequence of N valid source texts appends the compiled
elements in read order, and re-encoding yields the same N source texts in the
same order, for every N (covering N = 0, 1, and many), for both the text and
the byte pattern kind. -/
theorem claim5_seq_order (e : Engine) (l : List String) (h : ∀ s ∈ l, e.check s = none) :
    (∃ m : Serde (List (Regex e)),
      Serde.deserializeRegexVec e (.seq (l.map .str)) = .ok m ∧
      m.val.map Regex.source = l ∧
      Serde.serializeRegexVec e m = .seq (l.map .str)) ∧
    (∃ m : Serde (List (BytesRegex e)),
      Serde.deserializeBytesRegexVec e (.seq (l.map .str)) = .ok m ∧
      m.val.map BytesRegex.source = l ∧
      Serde.serializeBytesRegexVec e m = .seq (l.map .str)) := by
  constructor
  · obtain ⟨rs, hrs, hsrc⟩ := visitSeq_ok l h
    refine ⟨⟨rs⟩, ?_, hsrc, ?_⟩
    · simp [Serde.deserializeRegexVec, hrs, Except.map]
    · simp [Serde.serializeRegexVec, Serde.serializeRegex, ← hsrc, List.map_map,
        Function.comp_def]
  · obtain ⟨rs, hrs, hsrc⟩ := bytesVisitSeq_ok l h
    refine ⟨⟨rs⟩, ?_, hsrc, ?_⟩
    · simp [Serde.deserializeBytesRegexVec, hrs, Except.map]
    · simp [Serde.serializeBytesRegexVec, Serde.serializeBytesRegex, ← hsrc, List.map_map,
        Function.comp_def]

theorem claim5_seq_order_witness :
    (∃ m : Serde (List (Regex toyEngine)),
      Serde.deserializeRegexVec toyEngine (.seq [.str "a.*b", .str "c?d"]) = .ok m ∧
      m.val.map Regex.source = ["a.*b", "c?d"] ∧
      Serde.serializeRegexVec toyEngine m = .seq [.str "a.*b", .str "c?d"]) ∧
    (∃ m : Serde (List (BytesRegex toyEngine)),
      Serde.deserializeBytesRegexVec toyEngine (.seq [.str "a.*b", .str "c?d"]) = .ok m ∧
      m.val.map BytesRegex.source = ["a.*b", "c?d"] ∧
      Serde.serializeBytesRegexVec toyEngine m = .seq [.str "a.*b", .str "c?d"]) :=
  claim5_seq_order toyEngine ["a.*b", "c?d"] (by decide)

/-- Claim C6: the sequence decode fails atomically for both pattern kinds: if
an element fails to decode (here, the first failing element's source text does
not compile), the whole sequence decode fails with that element's error, and
no partially-built sequence is returned, whatever follows the failing
element. -/
theorem claim6_seq_atomic_failure (e : Engine) (pre : List String) (bad msg : String)
    (rest : List Value) (hpre : ∀ s ∈ pre, e.check s = none)
    (hbad : e.check bad = some msg) :
    Serde.deserializeRegexVec e (.seq (pre.map .str ++ .str bad :: rest)) = .error msg ∧
    Serde.deserializeBytesRegexVec e (.seq (pre.map .str ++ .str bad :: rest)) = .error msg := by
  constructor
  · simp [Serde.deserializeRegexVec, visitSeq_err pre rest hpre hbad, Except.map]
  · simp [Serde.deserializeBytesRegexVec, bytesVisitSeq_err pre rest hpre hbad, Except.map]

theorem claim6_seq_atomic_failure_witness :
    Serde.deserializeRegexVec toyEngine (.seq [.str "a", .str "(", .null])
      = .error "unclosed group" ∧
    Serde.deserializeBytesRegexVec toyEngine (.seq [.str "a", .str "(", .null])
      = .error "unclosed group" :=
  claim6_seq_atomic_failure toyEngine ["a"] "(" "unclosed group" [.null]
    (by decide) (by decide)

/-- Claim C9: the free entry points are equivalent to the wrapper
implementations: `deserialize` returns exactly the wrapper decode's result
with the carrier unwrapped (same value on success, same error on failure),
and `serialize` produces exactly what encoding a transient carrier wrapping
the value produces. -/
theorem claim9_free_entry_points {T : Type} (dec : Value → Except String (Serde T))
    (enc : Serde T → Value) (v : Value) (value : T) :
    deserialize dec v = deserializeSpecSide dec v ∧
    (∀ t, deserialize dec v = .ok t ↔ dec v = .ok ⟨t⟩) ∧
    (∀ msg, deserialize dec v = .error msg ↔ dec v = .error msg) ∧
    serialize enc value = enc ⟨value⟩ := by
  refine ⟨?_, ?_, ?_, rfl⟩
  · cases hd : dec v with
    | ok w => cases w; simp [deserialize, deserializeSpecSide, hd, Except.map]
    | error msg => simp [deserialize, deserializeSpecSide, hd, Except.map]
  · intro t
    cases hd : dec v with
    | ok w => cases w; simp [deserialize, hd, Except.map, Serde.mk.injEq]
    | error msg => simp [deserialize, hd, Except.map]
  · intro msg
    cases hd : dec v with
    | ok w => simp [deserialize, hd, Except.map]
    | error m => simp [deserialize, hd, Except.map]

/-- Claim C10: the empty string is accepted as a pattern source at the public
interface: decoding the empty text token as a single pattern (text or byte
kind) succeeds and re-encoding yields the empty text token again, and decoding
the empty sequence as a pattern-set succeeds with an encoded form that is the
empty sequence. -/
theorem claim10_empty (e : Engine) (h : e.check "" = none) :
    (Serde.deserializeRegex e (.str "")).map (Serde.serializeRegex e) = .ok (.str "") ∧
    (Serde.deserializeBytesRegex e (.str "")).map (Serde.serializeBytesRegex e) = .ok (.str "") ∧
    (Serde.deserializeRegexSet e (.seq [])).map (Serde.serializeRegexSet e) = .ok (.seq []) := by
  refine ⟨?_, ?_, ?_⟩
  · simp [deserializeRegex_str_ok h, Except.map, Serde.serializeRegex]
  · simp [deserializeBytesRegex_str_ok h, Except.map, Serde.serializeBytesRegex]
  · have hs : e.checkSet [] = none := rfl
    simp [Serde.deserializeRegexSet, deserializeCowStrVec, deserializeCowStrList,
      compileSet_of_checkSet hs, Except.map, Serde.serializeRegexSet]

theorem claim10_empty_witness :
    (Serde.deserializeRegex toyEngine (.str "")).map (Serde.serializeRegex toyEngine)
      = .ok (.str "") ∧
    (Serde.deserializeBytesRegex toyEngine (.str "")).map (Serde.serializeBytesRegex toyEngine)
      = .ok (.str "") ∧
    (Serde.deserializeRegexSet toyEngine (.seq [])).map (Serde.serializeRegexSet toyEngine)
      = .ok (.seq []) :=
  claim10_empty toyEngine (by decide)

/-- Claim C4 counterexample: the optional composition is not expressible for
every supported pattern kind.  src/lib.rs supports the byte-mode pattern-set
as a single value (`Serde<bytes::RegexSet>`, lines 323 and 565) but has no
`Deserialize` or `Serialize` impl for `Serde<Option<bytes::RegexSet>>`, and an
optional mapping can be decoded (lines 253, 281) but not encoded: no
`Serialize` impl for an optional hash map exists for either pattern kind. -/
theorem claim4_counterexample :
    (Shape.single, PatternKind.byteRegexSet) ∈ deserializeImpls ∧
    (Shape.single, PatternKind.byteRegexSet) ∈ serializeImpls ∧
    (Shape.optional, PatternKind.byteRegexSet) ∉ deserializeImpls ∧
    (Shape.optional, PatternKind.byteRegexSet) ∉ serializeImpls ∧
    (Shape.optionalMapping, PatternKind.textRegex) ∈ deserializeImpls ∧
    (Shape.optionalMapping, PatternKind.textRegex) ∉ serializeImpls ∧
    (Shape.optionalMapping, PatternKind.byteRegex) ∈ deserializeImpls ∧
    (Shape.optionalMapping, PatternKind.byteRegex) ∉ serializeImpls := by
  decide

/-- Claim C4 (amended): for every optional composition the code implements —
optional single pattern (text and byte), optional pattern-set (text only),
optional sequence (text and byte) and, on the decode side only, optional
mapping (text and byte) — decoding the explicit absence marker yields an
absent value, decoding a present value delegates to the wrapped kind's decode
and wraps the result as present, encoding an absent value emits the absence
marker, and encoding a present value delegates to the wrapped kind's encode;
the composition is not expressible for the byte-mode pattern-set, and the
optional mapping has no encode. -/
theorem claim4_optional_amended {K : Type} [DecidableEq K]
    (e : Engine) (dK : Value → Except String K)
    (v : Value) (hv : v ≠ .null) :
    Serde.deserializeOptionRegex e .null = .ok ⟨none⟩ ∧
    Serde.deserializeOptionBytesRegex e .null = .ok ⟨none⟩ ∧
    Serde.deserializeOptionRegexSet e .null = .ok ⟨none⟩ ∧
    Serde.deserializeOptionRegexVec e .null = .ok ⟨none⟩ ∧
    Serde.deserializeOptionBytesRegexVec e .null = .ok ⟨none⟩ ∧
    Serde.deserializeOptionRegexHashMap e dK .null = .ok ⟨none⟩ ∧
    Serde.deserializeOptionBytesRegexHashMap e dK .null = .ok ⟨none⟩ ∧
    Serde.deserializeOptionRegex e v
      = (Serde.deserializeRegex e v).map (fun w => ⟨some w.val⟩) ∧
    Serde.deserializeOptionBytesRegex e v
      = (Serde.deserializeBytesRegex e v).map (fun w => ⟨some w.val⟩) ∧
    Serde.deserializeOptionRegexSet e v
      = (Serde.deserializeRegexSet e v).map (fun w => ⟨some w.val⟩) ∧
    Serde.deserializeOptionRegexVec e v
      = (Serde.deserializeRegexVec e v).map (fun w => ⟨some w.val⟩) ∧
    Serde.deserializeOptionBytesRegexVec e v
      = (Serde.deserializeBytesRegexVec e v).map (fun w => ⟨some w.val⟩) ∧
    Serde.deserializeOptionRegexHashMap e dK v
      = (Serde.deserializeRegexHashMap e dK v).map (fun w => ⟨some w.val⟩) ∧
    Serde.deserializeOptionBytesRegexHashMap e dK v
      = (Serde.deserializeBytesRegexHashMap e dK v).map (fun w => ⟨some w.val⟩) ∧
    Serde.serializeOptionRegex e ⟨none⟩ = .null ∧
    Serde.serializeOptionBytesRegex e ⟨none⟩ = .null ∧
    Serde.serializeOptionRegexSet e ⟨none⟩ = .null ∧
    Serde.serializeOptionRegexVec e ⟨none⟩ = .null ∧
    Serde.serializeOptionBytesRegexVec e ⟨none⟩ = .null ∧
    (∀ r : Regex e, Serde.serializeOptionRegex e ⟨some r⟩ = Serde.serializeRegex e ⟨r⟩) ∧
    (∀ r : BytesRegex e,
      Serde.serializeOptionBytesRegex e ⟨some r⟩ = Serde.serializeBytesRegex e ⟨r⟩) ∧
    (∀ st : RegexSet e,
      Serde.serializeOptionRegexSet e ⟨some st⟩ = Serde.serializeRegexSet e ⟨st⟩) ∧
    (∀ xs : List (Regex e),
      Serde.serializeOptionRegexVec e ⟨some xs⟩ = Serde.serializeRegexVec e ⟨xs⟩) ∧
    (∀ xs : List (BytesRegex e),
      Serde.serializeOptionBytesRegexVec e ⟨some xs⟩ = Serde.serializeBytesRegexVec e ⟨xs⟩) := by
  have hnn : ∀ {α : Type} (inner : Value → Except String (Serde α)),
      deserializeOptionWith inner v = (inner v).map some := by
    intro α inner
    cases v with
    | null => exact absurd rfl hv
    | str s => rfl
    | seq vs => rfl
    | map es => rfl
  refine ⟨rfl, rfl, rfl, rfl, rfl, rfl, rfl, ?_, ?_, ?_, ?_, ?_, ?_, ?_,
    rfl, rfl, rfl, rfl, rfl,
    fun r => rfl, fun r => rfl, fun st => rfl, fun xs => rfl, fun xs => rfl⟩
  · unfold Serde.deserializeOptionRegex
    rw [hnn]
    cases hr : Serde.deserializeRegex e v with
    | ok w => cases w; simp [Except.map]
    | error msg => simp [Except.map]
  · unfold Serde.deserializeOptionBytesRegex
    rw [hnn]
    cases hr : Serde.deserializeBytesRegex e v with
    | ok w => cases w; simp [Except.map]
    | error msg => simp [Except.map]
  · unfold Serde.deserializeOptionRegexSet
    rw [hnn]
    cases hr : Serde.deserializeRegexSet e v with
    | ok w => cases w; simp [Except.map]
    | error msg => simp [Except.map]
  · unfold Serde.deserializeOptionRegexVec
    rw [hnn]
    cases hr : Serde.deserializeRegexVec e v with
    | ok w => cases w; simp [Except.map]
    | error msg => simp [Except.map]
  · unfold Serde.deserializeOptionBytesRegexVec
    rw [hnn]
    cases hr : Serde.deserializeBytesRegexVec e v with
    | ok w => cases w; simp [Except.map]
    | error msg => simp [Except.map]
  · unfold Serde.deserializeOptionRegexHashMap
    rw [hnn]
    cases hr : Serde.deserializeRegexHashMap e dK v with
    | ok w => cases w; simp [Except.map]
    | error msg => simp [Except.map]
  · unfold Serde.deserializeOptionBytesRegexHashMap
    rw [hnn]
    cases hr : Serde.deserializeBytesRegexHashMap e dK v with
    | ok w => cases w; simp [Except.map]
    | error msg => simp [Except.map]

theorem claim4_optional_amended_witness :
    Serde.deserializeOptionRegex toyEngine .null = .ok ⟨none⟩ ∧
    Serde.deserializeOptionBytesRegex toyEngine .null = .ok ⟨none⟩ ∧
    Serde.deserializeOptionRegexSet toyEngine .null = .ok ⟨none⟩ ∧
    Serde.deserializeOptionRegexVec toyEngine .null = .ok ⟨none⟩ ∧
    Serde.deserializeOptionBytesRegexVec toyEngine .null = .ok ⟨none⟩ ∧
    Serde.deserializeOptionRegexHashMap toyEngine deserializeCowStr .null = .ok ⟨none⟩ ∧
    Serde.deserializeOptionBytesRegexHashMap toyEngine deserializeCowStr .null = .ok ⟨none⟩ ∧
    Serde.deserializeOptionRegex toyEngine (.str "c?d")
      = (Serde.deserializeRegex toyEngine (.str "c?d")).map (fun w => ⟨some w.val⟩) ∧
    Serde.deserializeOptionBytesRegex toyEngine (.str "c?d")
      = (Serde.deserializeBytesRegex toyEngine (.str "c?d")).map (fun w => ⟨some w.val⟩) ∧
    Serde.deserializeOptionRegexSet toyEngine (.str "c?d")
      = (Serde.deserializeRegexSet toyEngine (.str "c?d")).map (fun w => ⟨some w.val⟩) ∧
    Serde.deserializeOptionRegexVec toyEngine (.str "c?d")
      = (Serde.deserializeRegexVec toyEngine (.str "c?d")).map (fun w => ⟨some w.val⟩) ∧
    Serde.deserializeOptionBytesRegexVec toyEngine (.str "c?d")
      = (Serde.deserializeBytesRegexVec toyEngine (.str "c?d")).map (fun w => ⟨some w.val⟩) ∧
    Serde.deserializeOptionRegexHashMap toyEngine deserializeCowStr (.str "c?d")
      = (Serde.deserializeRegexHashMap toyEngine deserializeCowStr (.str "c?d")).map
          (fun w => ⟨some w.val⟩) ∧
    Serde.deserializeOptionBytesRegexHashMap toyEngine deserializeCowStr (.str "c?d")
      = (Serde.deserializeBytesRegexHashMap toyEngine deserializeCowStr (.str "c?d")).map
          (fun w => ⟨some w.val⟩) ∧
    Serde.serializeOptionRegex toyEngine ⟨none⟩ = .null ∧
    Serde.serializeOptionBytesRegex toyEngine ⟨none⟩ = .null ∧
    Serde.serializeOptionRegexSet toyEngine ⟨none⟩ = .null ∧
    Serde.serializeOptionRegexVec toyEngine ⟨none⟩ = .null ∧
    Serde.serializeOptionBytesRegexVec toyEngine ⟨none⟩ = .null ∧
    (∀ r : Regex toyEngine,
      Serde.serializeOptionRegex toyEngine ⟨some r⟩ = Serde.serializeRegex toyEngine ⟨r⟩) ∧
    (∀ r : BytesRegex toyEngine,
      Serde.serializeOptionBytesRegex toyEngine ⟨some r⟩
        = Serde.serializeBytesRegex toyEngine ⟨r⟩) ∧
    (∀ st : RegexSet toyEngine,
      Serde.serializeOptionRegexSet toyEngine ⟨some st⟩
        = Serde.serializeRegexSet toyEngine ⟨st⟩) ∧
    (∀ xs : List (Regex toyEngine),
      Serde.serializeOptionRegexVec toyEngine ⟨some xs⟩
        = Serde.serializeRegexVec toyEngine ⟨xs⟩) ∧
    (∀ xs : List (BytesRegex toyEngine),
      Serde.serializeOptionBytesRegexVec toyEngine ⟨some xs⟩
        = Serde.serializeBytesRegexVec toyEngine ⟨xs⟩) :=
  claim4_optional_amended toyEngine deserializeCowStr (.str "c?d")
    (fun h => Value.noConfusion h)

/-- Claim C7: the mapping decode resolves duplicate keys by last-write-wins
for both pattern kinds: when every value text compiles, the decode succeeds
(duplicates are not an error) and, for every key, the decoded mapping holds
the pattern compiled from the last value given for that key in the input. -/
theorem claim7_duplicate_keys_lww {K : Type} [DecidableEq K] (e : Engine)
    (dK : Value → Except String K) (sK : K → Value)
    (hks : ∀ k, dK (sK k) = .ok k)
    (l : List (K × String)) (hval : ∀ p ∈ l, e.check p.2 = none) :
    (∃ m : Serde (List (K × Regex e)),
      Serde.deserializeRegexHashMap e dK (.map (l.map (fun p => (sK p.1, .str p.2))))
        = .ok m ∧
      ∀ k, (hashMapLookup m.val k).map Regex.source = lastAssoc l k) ∧
    (∃ m : Serde (List (K × BytesRegex e)),
      Serde.deserializeBytesRegexHashMap e dK (.map (l.map (fun p => (sK p.1, .str p.2))))
        = .ok m ∧
      ∀ k, (hashMapLookup m.val k).map BytesRegex.source = lastAssoc l k) := by
  constructor
  · obtain ⟨m, hm, hproj⟩ := visitMap_ok dK sK hks l hval []
    refine ⟨⟨m⟩, ?_, ?_⟩
    · simp [Serde.deserializeRegexHashMap, hm, Except.map]
    · intro k
      have hlk := hashMapLookup_map Regex.source m k
      rw [hproj] at hlk
      rw [← hlk, hashMapLookup_resolveLWWFrom]
      cases hl : lastAssoc l k <;> simp [hashMapLookup]
  · obtain ⟨m, hm, hproj⟩ := bytesVisitMap_ok dK sK hks l hval []
    refine ⟨⟨m⟩, ?_, ?_⟩
    · simp [Serde.deserializeBytesRegexHashMap, hm, Except.map]
    · intro k
      have hlk := hashMapLookup_map BytesRegex.source m k
      rw [hproj] at hlk
      rw [← hlk, hashMapLookup_resolveLWWFrom]
      cases hl : lastAssoc l k <;> simp [hashMapLookup]

theorem claim7_duplicate_keys_lww_witness :
    (∃ m : Serde (List (String × Regex toyEngine)),
      Serde.deserializeRegexHashMap toyEngine deserializeCowStr
        (.map ([("a", "a.*b"), ("a", "c?d")].map (fun p => (Value.str p.1, .str p.2))))
        = .ok m ∧
      ∀ k, (hashMapLookup m.val k).map Regex.source
        = lastAssoc [("a", "a.*b"), ("a", "c?d")] k) ∧
    (∃ m : Serde (List (String × BytesRegex toyEngine)),
      Serde.deserializeBytesRegexHashMap toyEngine deserializeCowStr
        (.map ([("a", "a.*b"), ("a", "c?d")].map (fun p => (Value.str p.1, .str p.2))))
        = .ok m ∧
      ∀ k, (hashMapLookup m.val k).map BytesRegex.source
        = lastAssoc [("a", "a.*b"), ("a", "c?d")] k) :=
  claim7_duplicate_keys_lww toyEngine deserializeCowStr Value.str (fun k => rfl)
    [("a", "a.*b"), ("a", "c?d")] (by decide)

/-- Claim C8: decoding a mapping of keys to valid source texts and re-encoding
yields a mapping whose (key, pattern-source-text) entries are exactly the
input's entries after last-write-wins duplicate-key resolution; the resolved
relational content agrees with the input at every key. -/
theorem claim8_map_integrity {K : Type} [DecidableEq K] (e : Engine)
    (dK : Value → Except String K) (sK : K → Value)
    (hks : ∀ k, dK (sK k) = .ok k)
    (l : List (K × String)) (hval : ∀ p ∈ l, e.check p.2 = none) :
    ∃ m : Serde (List (K × Regex e)),
      Serde.deserializeRegexHashMap e dK (.map (l.map (fun p => (sK p.1, .str p.2))))
        = .ok m ∧
      Serde.serializeRegexHashMap e sK m
        = .map ((resolveLWW l).map (fun p => (sK p.1, .str p.2))) ∧
      (∀ k, hashMapLookup (resolveLWW l) k = lastAssoc l k) := by
  obtain ⟨m, hm, hproj⟩ := visitMap_ok dK sK hks l hval []
  refine ⟨⟨m⟩, ?_, ?_, ?_⟩
  · simp [Serde.deserializeRegexHashMap, hm, Except.map]
  · show Value.map (m.map (fun p => (sK p.1, Serde.serializeRegex e ⟨p.2⟩))) = _
    rw [show resolveLWW l = m.map (fun p => (p.1, p.2.source)) from hproj.symm]
    simp [List.map_map, Serde.serializeRegex, Function.comp_def]
  · intro k
    rw [resolveLWW, hashMapLookup_resolveLWWFrom]
    cases hl : lastAssoc l k <;> simp [hashMapLookup]

theorem claim8_map_integrity_witness :
    ∃ m : Serde (List (String × Regex toyEngine)),
      Serde.deserializeRegexHashMap toyEngine deserializeCowStr
        (.map ([("a", "a.*b"), ("b", "c?d")].map (fun p => (Value.str p.1, .str p.2))))
        = .ok m ∧
      Serde.serializeRegexHashMap toyEngine Value.str m
        = .map ((resolveLWW [("a", "a.*b"), ("b", "c?d")]).map
            (fun p => (Value.str p.1, .str p.2))) ∧
      (∀ k, hashMapLookup (resolveLWW [("a", "a.*b"), ("b", "c?d")]) k
        = lastAssoc [("a", "a.*b"), ("b", "c?d")] k) :=
  claim8_map_integrity toyEngine deserializeCowStr Value.str (fun k => rfl)
    [("a", "a.*b"), ("b", "c?d")] (by decide)

end SerdeRegex
